import Mathlib

/-!
Relay REST endpoint (`cmd/relay/endpoint/rest.go`)

A shallow embedding of the four HTTP handlers of the relay
(`handleGetRoot`, `handlePostClaim`, `handleGetIDRoot`, `handleGetClaimByHi`)
together with the `fail` helper.

The handlers are glue code: they call the claim service, the root service,
the claim parsers of `core` and a few byte/hex utilities.  Those
collaborators are not part of the source file, so they are the fields of an
environment `Env`; the handlers are translated statement by statement on top
of it.  Every handler returns a `Context`: the service state it leaves, the
ordered list of collaborator calls it made, the log lines it wrote, the JSON
response it wrote (if any) and whether it stopped on a run-time panic.
-/

namespace Relay

/-! ## Bytes, Go slices and fixed-width hashes -/

/-- One byte. -/
abbrev Byte := Fin 256

/-- A Go slice of bytes: `arr` is the backing array from the slice's first
element up to its capacity, `len` is the slice length. -/
structure GoSlice where
  arr : List Byte
  len : Nat
  hlen : len ≤ arr.length

namespace GoSlice

/-- Go `cap(s)`. -/
def cap (s : GoSlice) : Nat := s.arr.length

/-- The elements `s[0], …, s[len(s)-1]`. -/
def bytes (s : GoSlice) : List Byte := s.arr.take s.len

/-- A slice whose capacity equals its length. -/
def ofList (l : List Byte) : GoSlice := ⟨l, l.length, le_refl _⟩

/-- Go slice expression `s[lo:hi]` on a slice: the indices are in range when
`0 ≤ lo ≤ hi ≤ cap(s)`; otherwise the expression panics (`none`). -/
def slice (s : GoSlice) (lo hi : Nat) : Option GoSlice :=
  if h : lo ≤ hi ∧ hi ≤ s.cap then
    some ⟨s.arr.drop lo, hi - lo, by
      have h2 := h.2
      simp only [cap] at h2
      simp only [List.length_drop]
      omega⟩
  else none

end GoSlice

/-- The Go type `merkletree.Hash`, which is `[32]byte`. -/
structure Hash where
  bytes : List Byte
  size : bytes.length = 32
deriving DecidableEq

/-- The zero value of `merkletree.Hash` (`var hi merkletree.Hash`). -/
def Hash.zero : Hash := ⟨List.replicate 32 0, by simp⟩

/-- Go builtin `copy(dst, src)` on byte sequences: overwrites the first
`min(len(dst), len(src))` elements of `dst` with those of `src`. -/
def goCopy (dst src : List Byte) : List Byte :=
  src.take (min dst.length src.length) ++ dst.drop (min dst.length src.length)

/-- The statement pair `var hi merkletree.Hash; copy(hi[:], hiBytes)`. -/
def Hash.copyFrom (hiBytes : List Byte) : Hash :=
  ⟨goCopy Hash.zero.bytes hiBytes, by
    simp only [goCopy, Hash.zero, List.length_append, List.length_take, List.length_drop,
      List.length_replicate]
    omega⟩

/-! ## Hex rendering -/

/-- The hexadecimal digit of a value below sixteen. -/
def hexDigit (d : Nat) : Char :=
  match d with
  | 0 => '0' | 1 => '1' | 2 => '2' | 3 => '3'
  | 4 => '4' | 5 => '5' | 6 => '6' | 7 => '7'
  | 8 => '8' | 9 => '9' | 10 => 'a' | 11 => 'b'
  | 12 => 'c' | 13 => 'd' | 14 => 'e' | _ => 'f'

/-- Two hexadecimal digits per byte, high nibble first. -/
def hexChars : List Byte → List Char
  | [] => []
  | b :: bs =>
    hexDigit (b.val / 16) :: hexDigit (b.val % 16) :: hexChars bs

/-- Modelled from the spec: `common3.BytesToHex` lives in the repository's
`common` package, which is not part of the source slice.  The spec says that
"hashes and roots are rendered as hex strings"; the rendering is the usual
`0x`-marked lowercase hexadecimal string with two digits per byte. -/
def BytesToHex (bs : List Byte) : String :=
  String.mk ('0' :: 'x' :: hexChars bs)

/-! ## Messages, collaborators and the handler context -/

/-- The abstract types owned by the collaborating packages. -/
structure Sig where
  Body : Type
  State : Type
  Address : Type
  ClaimDefault : Type
  AssignNameClaim : Type
  AuthorizeKSignClaim : Type
  ProofOfClaim : Type

/-- The struct `claimsrv.BytesSignedMsg` the request body is bound to. -/
structure BytesSignedMsg where
  ValueHex : String
  SignatureHex : String

/-- The message `claimsrv.ClaimValueMsg`. -/
structure ClaimValueMsg (S : Sig) where
  ClaimValue : S.ClaimDefault
  Signature : String

/-- The message `claimsrv.AuthorizeKSignClaimMsg`. -/
structure AuthorizeKSignClaimMsg (S : Sig) where
  AuthorizeKSignClaim : S.AuthorizeKSignClaim
  Signature : String

/-- Everything the handlers take from outside `rest.go`: configuration
values, the JSON binding of gin, the type-hash constants and parsers of
`core`, the claim service `claimservice`, the root service `rootservice`,
and conversion helpers.
A Go `error` is its message; a Go function returning only `error` returns
`none` for `nil`.  Insertions return the state they leave behind, reads see
the state they are called in.  `ShouldBindJSON` decodes a request body into
a `BytesSignedMsg`: it returns the struct as far as it was filled, and the
decoding error if there was one.  `authorizeKSignInsert` is the outcome of
the signature check and insertion behind `AddAuthorizeKSignClaim`: the error
of a rejection, or the state after the insertion. -/
structure Env (S : Sig) where
  Namespace : String
  RootCommitsAddress : String
  ShouldBindJSON : S.Body → Option String × BytesSignedMsg
  HexToAddress : String → S.Address
  HexToBytes : String → Except String GoSlice
  DefaultTypeHash : Hash
  AssignNameTypeHash : Hash
  AuthorizeksignTypeHash : Hash
  SetRootTypeHash : Hash
  ParseClaimDefaultBytes : GoSlice → Except String S.ClaimDefault
  ParseAssignNameClaimBytes : GoSlice → Except String S.AssignNameClaim
  ParseAuthorizeKSignClaimBytes : GoSlice → Except String S.AuthorizeKSignClaim
  HiDefault : S.ClaimDefault → Hash
  HiAssignName : S.AssignNameClaim → Hash
  HiAuthorizeKSign : S.AuthorizeKSignClaim → Hash
  AddUserIDClaim : String → S.Address → ClaimValueMsg S → S.State → Option String × S.State
  AddAssignNameClaim : S.AssignNameClaim → S.State → Option String × S.State
  authorizeKSignInsert :
    S.Address → AuthorizeKSignClaimMsg S → S.State → Except String S.State
  GetClaimByHi : String → S.Address → Hash → S.State → Except String S.ProofOfClaim
  GetIDRoot : S.Address → S.State → Except String (Hash × List Byte)
  MTRoot : S.State → Hash
  GetRoot : S.Address → S.State → Except String Hash
  HashHex : Hash → String
  ProofHex : S.ProofOfClaim → String

/-- A call made by a handler to a parser or to a service, with its arguments. -/
inductive Call (S : Sig) where
  | ParseClaimDefaultBytes (b : GoSlice)
  | ParseAssignNameClaimBytes (b : GoSlice)
  | ParseAuthorizeKSignClaimBytes (b : GoSlice)
  | AddUserIDClaim (ns : String) (idaddr : S.Address) (msg : ClaimValueMsg S)
  | AddAssignNameClaim (claim : S.AssignNameClaim)
  | AddAuthorizeKSignClaim (idaddr : S.Address) (msg : AuthorizeKSignClaimMsg S)
  | GetClaimByHi (ns : String) (idaddr : S.Address) (hi : Hash)
  | GetIDRoot (idaddr : S.Address)
  | MTRoot
  | GetRoot (contractAddress : S.Address)

namespace Call

variable {S : Sig}

/-- The call is one of the three parsers. -/
def isParse : Call S → Bool
  | ParseClaimDefaultBytes _ => true
  | ParseAssignNameClaimBytes _ => true
  | ParseAuthorizeKSignClaimBytes _ => true
  | _ => false

/-- The call is one of the three insertion operations. -/
def isInsertion : Call S → Bool
  | AddUserIDClaim _ _ _ => true
  | AddAssignNameClaim _ => true
  | AddAuthorizeKSignClaim _ _ => true
  | _ => false

/-- The call is a proof retrieval. -/
def isGetClaimByHi : Call S → Bool
  | GetClaimByHi _ _ _ => true
  | _ => false

/-- The call is a committed-root fetch. -/
def isGetRoot : Call S → Bool
  | GetRoot _ => true
  | _ => false

/-- The identity address an insertion call is given, if it is given one. -/
def insertionAddr : Call S → Option S.Address
  | AddUserIDClaim _ idaddr _ => some idaddr
  | AddAuthorizeKSignClaim idaddr _ => some idaddr
  | _ => none

end Call

/-- A line written through `log`: `log.WithError(err).Error(msg)` carries
the error, `log.Error(msg)` does not. -/
structure LogEntry where
  msg : String
  err : Option String
deriving DecidableEq

/-- What is sent to the client: the status code of the header and the fields
of the JSON object written to the body. -/
structure Response where
  status : Nat
  body : List (String × String)
deriving DecidableEq

/-- The observable effects of running a handler. -/
structure Context (S : Sig) where
  svc : S.State
  calls : List (Call S)
  logs : List LogEntry
  response : Option Response
  panicked : Bool

namespace Context

variable {S : Sig}

/-- The context a handler starts in. -/
def init (s : S.State) : Context S :=
  { svc := s, calls := [], logs := [], response := none, panicked := false }

/-- Record a collaborator call. -/
def call (c : Context S) (k : Call S) : Context S :=
  { c with calls := c.calls ++ [k] }

/-- Record a log line. -/
def log (c : Context S) (msg : String) (err : Option String) : Context S :=
  { c with logs := c.logs ++ [⟨msg, err⟩] }

/-- The method `c.AbortWithStatus(code)` of gin: the header is written at
once with the given status; nothing is in the body yet.  A header that was
already written stays. -/
def AbortWithStatus (c : Context S) (code : Nat) : Context S :=
  match c.response with
  | none => { c with response := some ⟨code, []⟩ }
  | some _ => c

/-- The method `c.BindJSON(obj)` of gin: it decodes the request body into
`obj` and returns the decoding error; on an error it first aborts the request
with status 400.  (The entry it adds to the context's error list and the
abort flag only concern other handlers of the chain.) -/
def BindJSON (c : Context S) (env : Env S) (body : S.Body) :
    Context S × BytesSignedMsg × Option String :=
  match env.ShouldBindJSON body with
  | (some err, obj) => (c.AbortWithStatus 400, obj, some err)
  | (none, obj) => (c, obj, none)

/-- The method `c.JSON(code, obj)`: when nothing was written yet, the header
goes out with status `code` and `obj` is the body; when the header was
already written its status stays and `obj` is written to the body. -/
def JSON (c : Context S) (code : Nat) (obj : List (String × String)) : Context S :=
  match c.response with
  | none => { c with response := some ⟨code, obj⟩ }
  | some r => { c with response := some ⟨r.status, r.body ++ obj⟩ }

/-- A Go run-time panic: the handler stops where it is. -/
def panic (c : Context S) : Context S :=
  { c with panicked := true }

/-- The service state after an insertion returned. -/
def setSvc (c : Context S) (s : S.State) : Context S :=
  { c with svc := s }

end Context

variable {S : Sig}

/-! ## The handlers -/

/-- Modelled from the spec: `claimservice.AddAuthorizeKSignClaim` belongs to
the repository's `claimsrv` package, which is not part of the source slice.
The spec says of it that the "insertion is rejected with `UnauthorizedClaim`
if signature verification (delegated) fails; on success, insert", and that a
rejection means "rejected, no mutation" ("insert is all-or-nothing per
claim").  So a rejection returns its error and the state it was called in,
and a success returns `nil` and the state after the insertion. -/
def AddAuthorizeKSignClaim (env : Env S) (idaddr : S.Address)
    (msg : AuthorizeKSignClaimMsg S) (s : S.State) : Option String × S.State :=
  match env.authorizeKSignInsert idaddr msg s with
  | .error err => (some err, s)
  | .ok s1 => (none, s1)

/-- The helper `fail(c, msg, err)`. -/
def fail (c : Context S) (msg : String) (err : Option String) : Context S :=
  let c1 :=
    match err with
    | some e => c.log msg (some e)
    | none => c.log msg none
  c1.JSON 400 [("error", msg)]

/-- The handler `handleGetRoot`. -/
def handleGetRoot (env : Env S) (s : S.State) : Context S :=
  let c := Context.init s
  let contractAddress := env.HexToAddress env.RootCommitsAddress
  let c := c.call (.GetRoot contractAddress)
  match env.GetRoot contractAddress c.svc with
  | .error err => fail c "error contract.GetRoot(contractAddress)" (some err)
  | .ok root =>
    let c := c.call .MTRoot
    c.JSON 200 [("root", env.HashHex (env.MTRoot c.svc)),
                ("contractRoot", BytesToHex root.bytes)]

/-- The handler `handlePostClaim`; `body` is the request body.  The error
`c.BindJSON` returns is not looked at: the handler carries on with the struct
as far as it was filled. -/
def handlePostClaim (env : Env S) (idaddrhex : String) (body : S.Body)
    (s : S.State) : Context S :=
  let c := Context.init s
  let idaddr := env.HexToAddress idaddrhex
  let bound := c.BindJSON env body
  let c := bound.1
  let bytesSignedMsg := bound.2.1
  match env.HexToBytes bytesSignedMsg.ValueHex with
  | .error err => fail c "error on parsing bytesSignedMsg.HexValue to bytes" (some err)
  | .ok bytesValue =>
    match bytesValue.slice 32 56 with
    | none => c.panic
    | some typeBytes =>
      let tag := BytesToHex typeBytes.bytes
      if tag = BytesToHex (env.DefaultTypeHash.bytes.take 24) then
        let c := c.call (.ParseClaimDefaultBytes bytesValue)
        match env.ParseClaimDefaultBytes bytesValue with
        | .error err => fail c "error on parsing ClaimDefault bytes" (some err)
        | .ok claimDefault =>
          let claimValueMsg : ClaimValueMsg S := ⟨claimDefault, bytesSignedMsg.SignatureHex⟩
          let c := c.call (.AddUserIDClaim env.Namespace idaddr claimValueMsg)
          match env.AddUserIDClaim env.Namespace idaddr claimValueMsg c.svc with
          | (some err, s1) => fail (c.setSvc s1) "error on AddUserIDClaim" (some err)
          | (none, s1) =>
            let c := (c.setSvc s1).call
              (.GetClaimByHi env.Namespace idaddr (env.HiDefault claimDefault))
            match env.GetClaimByHi env.Namespace idaddr (env.HiDefault claimDefault) c.svc with
            | .error err => fail c "error on GetClaimByHi" (some err)
            | .ok proofOfClaim => c.JSON 200 [("proofOfClaim", env.ProofHex proofOfClaim)]
      else if tag = BytesToHex (env.AssignNameTypeHash.bytes.take 24) then
        let c := c.call (.ParseAssignNameClaimBytes bytesValue)
        match env.ParseAssignNameClaimBytes bytesValue with
        | .error err => fail c "error on parsing AssignNameClaim bytes" (some err)
        | .ok assignNameClaim =>
          let c := c.call (.AddAssignNameClaim assignNameClaim)
          match env.AddAssignNameClaim assignNameClaim c.svc with
          | (some err, s1) => fail (c.setSvc s1) "error on AddAssignNameClaim" (some err)
          | (none, s1) =>
            let c := (c.setSvc s1).call
              (.GetClaimByHi env.Namespace idaddr (env.HiAssignName assignNameClaim))
            match env.GetClaimByHi env.Namespace idaddr (env.HiAssignName assignNameClaim)
                c.svc with
            | .error err => fail c "error on GetClaimByHi" (some err)
            | .ok proofOfClaim => c.JSON 200 [("proofOfClaim", env.ProofHex proofOfClaim)]
      else if tag = BytesToHex (env.AuthorizeksignTypeHash.bytes.take 24) then
        let c := c.call (.ParseAuthorizeKSignClaimBytes bytesValue)
        match env.ParseAuthorizeKSignClaimBytes bytesValue with
        | .error err => fail c "error on parsing AuthorizeKSignClaim bytes" (some err)
        | .ok authorizeKSignClaim =>
          let authorizeKSignClaimMsg : AuthorizeKSignClaimMsg S :=
            ⟨authorizeKSignClaim, bytesSignedMsg.SignatureHex⟩
          let c := c.call (.AddAuthorizeKSignClaim idaddr authorizeKSignClaimMsg)
          match AddAuthorizeKSignClaim env idaddr authorizeKSignClaimMsg c.svc with
          | (some err, s1) => fail (c.setSvc s1) "error on AddAuthorizeKSignClaim" (some err)
          | (none, s1) =>
            let c := (c.setSvc s1).call
              (.GetClaimByHi env.Namespace idaddr (env.HiAuthorizeKSign authorizeKSignClaim))
            match env.GetClaimByHi env.Namespace idaddr
                (env.HiAuthorizeKSign authorizeKSignClaim) c.svc with
            | .error err => fail c "error on GetClaimByHi" (some err)
            | .ok proofOfClaim => c.JSON 200 [("proofOfClaim", env.ProofHex proofOfClaim)]
      else if tag = BytesToHex (env.SetRootTypeHash.bytes.take 24) then
        c
      else
        fail c "type not found" (some "claim type not found")

/-- The handler `handleGetIDRoot`. -/
def handleGetIDRoot (env : Env S) (idaddrhex : String) (s : S.State) : Context S :=
  let c := Context.init s
  let idaddr := env.HexToAddress idaddrhex
  let c := c.call (.GetIDRoot idaddr)
  match env.GetIDRoot idaddr c.svc with
  | .error err => fail c "error on GetIDRoot" (some err)
  | .ok (idRoot, idRootProof) =>
    let c := c.call .MTRoot
    c.JSON 200 [("root", env.HashHex (env.MTRoot c.svc)),
                ("idRoot", env.HashHex idRoot),
                ("idRootProof", BytesToHex idRootProof)]

/-- The handler `handleGetClaimByHi`. -/
def handleGetClaimByHi (env : Env S) (idaddrhex hihex : String) (s : S.State) : Context S :=
  let c := Context.init s
  match env.HexToBytes hihex with
  | .error err => fail c "error on HexToBytes of Hi" (some err)
  | .ok hiBytes =>
    let hi := Hash.copyFrom hiBytes.bytes
    let idaddr := env.HexToAddress idaddrhex
    let c := c.call (.GetClaimByHi env.Namespace idaddr hi)
    match env.GetClaimByHi env.Namespace idaddr hi c.svc with
    | .error err => fail c "error on GetClaimByHi" (some err)
    | .ok proofOfClaim => c.JSON 200 [("proofOfClaim", env.ProofHex proofOfClaim)]

/-- Bytes [32,56) of a claim buffer: the 24-byte type tag. -/
def typeTag (b : GoSlice) : List Byte := (b.bytes.drop 32).take 24

/-- The 24-byte tag of a type hash: `TypeHash[:24]`. -/
def Hash.tag (h : Hash) : List Byte := h.bytes.take 24

/-- The four type tags of `core` are pairwise different. -/
def TagsDistinct (env : Env S) : Prop :=
  [env.DefaultTypeHash.tag, env.AssignNameTypeHash.tag,
   env.AuthorizeksignTypeHash.tag, env.SetRootTypeHash.tag].Nodup

instance (env : Env S) : Decidable (TagsDistinct env) := by
  unfold TagsDistinct
  infer_instance

/-- The handler's answer carries the relay's local root: some response was
written and its field "root" is the hex of `claimservice.MT().Root()`. -/
def ReportsLocalRoot (env : Env S) (s : S.State) (c : Context S) : Prop :=
  ∃ r, c.response = some r ∧ ("root", env.HashHex (env.MTRoot s)) ∈ r.body

/-- Every insertion call of the handler was given the identity address `a`. -/
def InsertionScopedTo (c : Context S) (a : S.Address) : Prop :=
  ∀ k ∈ c.calls, k.isInsertion = true → k.insertionAddr = some a

/-! ## A sample relay, used to run the handlers on concrete requests -/

/-- The value of a hexadecimal digit. -/
def hexVal (ch : Char) : Option Nat :=
  if 48 ≤ ch.toNat ∧ ch.toNat ≤ 57 then some (ch.toNat - 48)
  else if 97 ≤ ch.toNat ∧ ch.toNat ≤ 102 then some (ch.toNat - 87)
  else if 65 ≤ ch.toNat ∧ ch.toNat ≤ 70 then some (ch.toNat - 55)
  else none

/-- Decode pairs of hexadecimal digits; fails on an odd count or a bad digit. -/
def decodeHexChars : List Char → Option (List Byte)
  | [] => some []
  | [_] => none
  | a :: b :: rest =>
    match hexVal a, hexVal b, decodeHexChars rest with
    | some x, some y, some r => some (⟨(x * 16 + y) % 256, Nat.mod_lt _ (by decide)⟩ :: r)
    | _, _, _ => none

/-- A hex decoder for the sample relay: an optional `0x` mark followed by
hexadecimal digits; the returned slice has capacity equal to its length. -/
def sampleHexToBytes (h : String) : Except String GoSlice :=
  let digits :=
    match h.data with
    | '0' :: 'x' :: r => r
    | r => r
  match decodeHexChars digits with
  | some l => .ok (GoSlice.ofList l)
  | none => .error "encoding/hex: invalid input"

/-- A JSON value of a request body of the sample relay. -/
inductive JsonValue where
  | str (v : String)
  | num (n : Int)

/-- Decoding one JSON field into a Go string field, as `encoding/json` does:
an absent field leaves the zero value, a number is a type error that leaves
the zero value. -/
def sampleStringField (body : List (String × JsonValue)) (name : String) :
    Option String × String :=
  match body.lookup name with
  | some (.str v) => (none, v)
  | some (.num _) => (some "json: cannot unmarshal number into Go value of type string", "")
  | none => (none, "")

/-- Binding of the sample relay: both fields are decoded, the first error is
returned. -/
def sampleShouldBindJSON (body : List (String × JsonValue)) : Option String × BytesSignedMsg :=
  let v := sampleStringField body "valueHex"
  let g := sampleStringField body "signatureHex"
  (match v.1 with
   | some err => some err
   | none => g.1,
   ⟨v.2, g.2⟩)

/-- The types of the sample relay: a request body is the list of fields of
its JSON object; the state lists the inserted leaves, each with the identity
it is filed under (`none`: the relay's own tree). -/
abbrev sampleSig : Sig where
  Body := List (String × JsonValue)
  State := List (Option String × Hash)
  Address := String
  ClaimDefault := List Byte
  AssignNameClaim := List Byte
  AuthorizeKSignClaim := List Byte
  ProofOfClaim := List Byte

/-- A hash with all bytes equal. -/
def Hash.const (b : Byte) : Hash := ⟨List.replicate 32 b, by simp⟩

/-- A parser of the sample relay: claims are 64 bytes or longer. -/
def sampleParse (b : GoSlice) : Except String (List Byte) :=
  if 64 ≤ b.len then .ok b.bytes else .error "claim too short"

/-- Proof retrieval of the sample relay. -/
def sampleGetClaimByHi (idaddr : String) (hi : Hash) (s : List (Option String × Hash)) :
    Except String (List Byte) :=
  if (some idaddr, hi) ∈ s ∨ (none, hi) ∈ s then .ok (hi.bytes.take 2)
  else .error "claim not found"

/-- The root of the sample relay: the most recently inserted leaf index. -/
def sampleMTRoot (s : List (Option String × Hash)) : Hash :=
  match s with
  | [] => Hash.zero
  | e :: _ => e.2

/-- A small but complete relay environment. -/
def sampleEnv : Env sampleSig where
  Namespace := "iden3.io"
  RootCommitsAddress := "0xc0ffee"
  ShouldBindJSON := sampleShouldBindJSON
  HexToAddress := fun h => h
  HexToBytes := sampleHexToBytes
  DefaultTypeHash := Hash.const 1
  AssignNameTypeHash := Hash.const 2
  AuthorizeksignTypeHash := Hash.const 3
  SetRootTypeHash := Hash.const 4
  ParseClaimDefaultBytes := sampleParse
  ParseAssignNameClaimBytes := sampleParse
  ParseAuthorizeKSignClaimBytes := sampleParse
  HiDefault := fun cl => Hash.copyFrom (cl.drop 56)
  HiAssignName := fun cl => Hash.copyFrom (cl.drop 56)
  HiAuthorizeKSign := fun cl => Hash.copyFrom (cl.drop 56)
  AddUserIDClaim := fun _ idaddr msg s =>
    (none, (some idaddr, Hash.copyFrom (msg.ClaimValue.drop 56)) :: s)
  AddAssignNameClaim := fun cl s => (none, (none, Hash.copyFrom (cl.drop 56)) :: s)
  authorizeKSignInsert := fun idaddr msg s =>
    if msg.Signature = "0x600d" then
      .ok ((some idaddr, Hash.copyFrom (msg.AuthorizeKSignClaim.drop 56)) :: s)
    else .error "signature verification failed"
  GetClaimByHi := fun _ idaddr hi s => sampleGetClaimByHi idaddr hi s
  GetIDRoot := fun idaddr s =>
    match s.find? (fun e => e.1 = some idaddr) with
    | some e => .ok (e.2, e.2.bytes.take 2)
    | none => .error "identity not found"
  MTRoot := sampleMTRoot
  GetRoot := fun contractAddress _ =>
    if contractAddress = "" then .error "no contract code at given address"
    else .ok Hash.zero
  HashHex := fun h => BytesToHex h.bytes
  ProofHex := fun p => BytesToHex p

/-- The sample relay with no root-commits contract configured. -/
def sampleEnvNoLedger : Env sampleSig :=
  { sampleEnv with RootCommitsAddress := "" }

/-- A claim buffer with the given tag byte repeated over bytes [32,56) and
eight payload bytes after it. -/
def sampleClaimBytes (tagByte : Byte) : List Byte :=
  List.replicate 32 0 ++ List.replicate 24 tagByte ++ [1, 2, 3, 4, 5, 6, 7, 8]

/-- The bound struct of a request carrying a 64-byte claim with the given
tag byte. -/
def sampleMsg (tagByte : Byte) (signatureHex : String) : BytesSignedMsg :=
  ⟨BytesToHex (sampleClaimBytes tagByte), signatureHex⟩

/-- A well-formed request body carrying a 64-byte claim with the given tag
byte. -/
def sampleBody (tagByte : Byte) (signatureHex : String) : List (String × JsonValue) :=
  [("valueHex", .str (BytesToHex (sampleClaimBytes tagByte))),
   ("signatureHex", .str signatureHex)]

/-- A request body whose `signatureHex` is the number 5: the claim value is
bound, the binding as a whole fails. -/
def sampleBadSigBody (tagByte : Byte) : List (String × JsonValue) :=
  [("valueHex", .str (BytesToHex (sampleClaimBytes tagByte))),
   ("signatureHex", .num 5)]

/-- The decoded buffer of `sampleMsg`. -/
def sampleBuf (tagByte : Byte) : GoSlice := GoSlice.ofList (sampleClaimBytes tagByte)

/-- The bound struct of a request carrying a 56-byte buffer: a tag and
nothing after it. -/
def sampleTruncatedMsg (tagByte : Byte) : BytesSignedMsg :=
  ⟨BytesToHex (List.replicate 32 0 ++ List.replicate 24 tagByte), ""⟩

/-- A well-formed request body carrying that 56-byte buffer. -/
def sampleTruncatedBody (tagByte : Byte) : List (String × JsonValue) :=
  [("valueHex", .str (BytesToHex (List.replicate 32 0 ++ List.replicate 24 tagByte))),
   ("signatureHex", .str "")]

/-- The decoded buffer of `sampleTruncatedMsg`. -/
def sampleTruncatedBuf (tagByte : Byte) : GoSlice :=
  GoSlice.ofList (List.replicate 32 0 ++ List.replicate 24 tagByte)

/-! ## Lemmas on hex rendering and on the type-tag slice -/

theorem hexDigit_inj : ∀ a b : Fin 16, hexDigit a.val = hexDigit b.val → a = b := by
  decide

theorem hexDigit_eq {m n : Nat} (hm : m < 16) (hn : n < 16)
    (h : hexDigit m = hexDigit n) : m = n := by
  have := hexDigit_inj ⟨m, hm⟩ ⟨n, hn⟩ h
  exact congrArg Fin.val this

theorem hexChars_inj : ∀ a b : List Byte, hexChars a = hexChars b → a = b
  | [], [], _ => rfl
  | [], _ :: _, h => by simp [hexChars] at h
  | _ :: _, [], h => by simp [hexChars] at h
  | x :: xs, y :: ys, h => by
    simp only [hexChars, List.cons.injEq] at h
    obtain ⟨h1, h2, h3⟩ := h
    have e1 := hexDigit_eq (by omega) (by omega) h1
    have e2 := hexDigit_eq (by omega) (by omega) h2
    have hxy : x = y := by
      apply Fin.ext
      omega
    rw [hxy, hexChars_inj xs ys h3]

theorem BytesToHex_eq_iff (a b : List Byte) : BytesToHex a = BytesToHex b ↔ a = b := by
  constructor
  · intro h
    have h2 := congrArg String.data h
    simp only [BytesToHex, List.cons.injEq, true_and] at h2
    exact hexChars_inj a b h2
  · intro h
    rw [h]

theorem GoSlice.slice_none_of_cap (b : GoSlice) (h : b.cap < 56) : b.slice 32 56 = none := by
  unfold GoSlice.slice
  rw [dif_neg]
  omega

theorem GoSlice.slice_bytes_of_cap (b : GoSlice) (h : 56 ≤ b.cap) :
    ∃ t, b.slice 32 56 = some t ∧ t.bytes = (b.arr.drop 32).take 24 := by
  unfold GoSlice.slice
  rw [dif_pos ⟨by omega, h⟩]
  exact ⟨_, rfl, rfl⟩

theorem GoSlice.slice_bytes_of_len (b : GoSlice) (h : 56 ≤ b.len) :
    ∃ t, b.slice 32 56 = some t ∧ t.bytes = typeTag b := by
  have hcap : 56 ≤ b.cap := le_trans h b.hlen
  obtain ⟨t, h1, h2⟩ := b.slice_bytes_of_cap hcap
  refine ⟨t, h1, ?_⟩
  rw [h2]
  simp only [typeTag, GoSlice.bytes, List.drop_take, List.take_take]
  congr 1
  omega

theorem TagsDistinct.ne (env : Env S) (h : TagsDistinct env) :
    env.AssignNameTypeHash.bytes.take 24 ≠ env.DefaultTypeHash.bytes.take 24 ∧
    env.AuthorizeksignTypeHash.bytes.take 24 ≠ env.DefaultTypeHash.bytes.take 24 ∧
    env.AuthorizeksignTypeHash.bytes.take 24 ≠ env.AssignNameTypeHash.bytes.take 24 ∧
    env.SetRootTypeHash.bytes.take 24 ≠ env.DefaultTypeHash.bytes.take 24 ∧
    env.SetRootTypeHash.bytes.take 24 ≠ env.AssignNameTypeHash.bytes.take 24 ∧
    env.SetRootTypeHash.bytes.take 24 ≠ env.AuthorizeksignTypeHash.bytes.take 24 := by
  simp only [TagsDistinct, Hash.tag, List.nodup_cons, List.mem_cons, List.mem_singleton,
    List.not_mem_nil, not_or, List.nodup_nil, or_false, not_false_eq_true, and_true] at h
  obtain ⟨⟨h1, h2, h3⟩, ⟨h4, h5⟩, h6⟩ := h
  exact ⟨fun e => h1 e.symm, fun e => h2 e.symm, fun e => h4 e.symm, fun e => h3 e.symm,
    fun e => h5 e.symm, fun e => h6 e.symm⟩

/-! ## Short claim buffers -/

/-- C1 (what the code does): when the decoded claim buffer has capacity below
56, and in particular when it is a freshly decoded buffer of fewer than 56
bytes, the slice expression `bytesValue[32:56]` panics: the handler stops
without logging through `fail`, without writing an error body, and without
calling a parser, an insertion or a proof retrieval.  Nothing at all is
written when the body was bound without error; after a binding error only
the bare status 400 of `c.BindJSON` is there. -/
theorem handlePostClaim_short_buffer_panics (env : Env S) (idaddrhex : String)
    (body : S.Body) (s : S.State) (bindErr : Option String) (msg : BytesSignedMsg)
    (bytesValue : GoSlice)
    (hbind : env.ShouldBindJSON body = (bindErr, msg))
    (hdec : env.HexToBytes msg.ValueHex = .ok bytesValue) (hcap : bytesValue.cap < 56) :
    handlePostClaim env idaddrhex body s =
      { svc := s, calls := [], logs := [],
        response :=
          match bindErr with
          | none => none
          | some _ => some ⟨400, []⟩,
        panicked := true } := by
  cases bindErr <;>
    simp only [handlePostClaim, Context.BindJSON, hbind, hdec,
      bytesValue.slice_none_of_cap hcap] <;> rfl

theorem handlePostClaim_short_buffer_panics_witness :
    sampleEnv.ShouldBindJSON [("valueHex", .str "0x00"), ("signatureHex", .str "")]
      = (none, ⟨"0x00", ""⟩) ∧
    sampleEnv.HexToBytes (BytesSignedMsg.mk "0x00" "").ValueHex = .ok (GoSlice.ofList [0]) ∧
    (GoSlice.ofList [0]).cap < 56 ∧
    handlePostClaim sampleEnv "0xabc" [("valueHex", .str "0x00"), ("signatureHex", .str "")]
        [] =
      { svc := [], calls := [], logs := [], response := none, panicked := true } :=
  ⟨rfl, rfl, by decide,
   handlePostClaim_short_buffer_panics sampleEnv "0xabc"
     [("valueHex", .str "0x00"), ("signatureHex", .str "")] [] none ⟨"0x00", ""⟩
     (GoSlice.ofList [0]) rfl rfl (by decide)⟩

/-! ## Unknown and known type tags -/

/-- C2: for a claim buffer of at least 56 bytes, if bytes [32,56) differ from
all four type tags the handler answers 400 "type not found", calls nothing
and leaves the state alone; conversely a parser of a known type is called
only if bytes [32,56) equal that type's tag, and the handler ends silently
(no call, and no response or no `fail`) only if they equal the SetRoot tag. -/
theorem handlePostClaim_unknown_tag (env : Env S) (idaddrhex : String)
    (body : S.Body) (s : S.State) (bindErr : Option String) (msg : BytesSignedMsg)
    (bytesValue : GoSlice)
    (hbind : env.ShouldBindJSON body = (bindErr, msg))
    (hdec : env.HexToBytes msg.ValueHex = .ok bytesValue) (hlen : 56 ≤ bytesValue.len) :
    ((typeTag bytesValue ≠ env.DefaultTypeHash.tag ∧
      typeTag bytesValue ≠ env.AssignNameTypeHash.tag ∧
      typeTag bytesValue ≠ env.AuthorizeksignTypeHash.tag ∧
      typeTag bytesValue ≠ env.SetRootTypeHash.tag) →
      handlePostClaim env idaddrhex body s =
        { svc := s, calls := [],
          logs := [⟨"type not found", some "claim type not found"⟩],
          response := some ⟨400, [("error", "type not found")]⟩, panicked := false }) ∧
    (Call.ParseClaimDefaultBytes bytesValue ∈ (handlePostClaim env idaddrhex body s).calls →
      typeTag bytesValue = env.DefaultTypeHash.tag) ∧
    (Call.ParseAssignNameClaimBytes bytesValue ∈ (handlePostClaim env idaddrhex body s).calls →
      typeTag bytesValue = env.AssignNameTypeHash.tag) ∧
    (Call.ParseAuthorizeKSignClaimBytes bytesValue ∈
        (handlePostClaim env idaddrhex body s).calls →
      typeTag bytesValue = env.AuthorizeksignTypeHash.tag) ∧
    ((handlePostClaim env idaddrhex body s).calls = [] →
      ((handlePostClaim env idaddrhex body s).response = none ∨
        (handlePostClaim env idaddrhex body s).logs = []) →
      typeTag bytesValue = env.SetRootTypeHash.tag) := by
  obtain ⟨t, hs, ht⟩ := bytesValue.slice_bytes_of_len hlen
  cases bindErr <;>
  · simp only [handlePostClaim, Context.BindJSON, hbind, hdec, hs, ht, BytesToHex_eq_iff,
      Hash.tag]
    refine ⟨?_, ?_, ?_, ?_, ?_⟩
    · rintro ⟨h1, h2, h3, h4⟩
      simp only [h1, h2, h3, h4, if_false]
      rfl
    · intro h
      by_contra hne
      simp only [hne, if_false] at h
      repeat' (split at h)
      all_goals simp [fail, Context.init, Context.call, Context.log, Context.JSON,
        Context.setSvc, Context.AbortWithStatus] at h
    · intro h
      by_contra hne
      simp only [hne, if_false] at h
      repeat' (split at h)
      all_goals simp [fail, Context.init, Context.call, Context.log, Context.JSON,
        Context.setSvc, Context.AbortWithStatus] at h
    · intro h
      by_contra hne
      simp only [hne, if_false] at h
      repeat' (split at h)
      all_goals simp [fail, Context.init, Context.call, Context.log, Context.JSON,
        Context.setSvc, Context.AbortWithStatus] at h
    · intro h1 h2
      by_contra hne
      simp only [hne, if_false] at h1 h2
      repeat' (split at h1)
      all_goals simp_all [fail, Context.init, Context.call, Context.log, Context.JSON,
        Context.setSvc, Context.AbortWithStatus]

theorem handlePostClaim_unknown_tag_witness :
    sampleEnv.ShouldBindJSON (sampleBody 9 "") = (none, sampleMsg 9 "") ∧
    sampleEnv.HexToBytes (sampleMsg 9 "").ValueHex = .ok (sampleBuf 9) ∧
    56 ≤ (sampleBuf 9).len ∧
    (typeTag (sampleBuf 9) ≠ sampleEnv.DefaultTypeHash.tag ∧
      typeTag (sampleBuf 9) ≠ sampleEnv.AssignNameTypeHash.tag ∧
      typeTag (sampleBuf 9) ≠ sampleEnv.AuthorizeksignTypeHash.tag ∧
      typeTag (sampleBuf 9) ≠ sampleEnv.SetRootTypeHash.tag) ∧
    handlePostClaim sampleEnv "0xabc" (sampleBody 9 "") [] =
      { svc := [], calls := [],
        logs := [⟨"type not found", some "claim type not found"⟩],
        response := some ⟨400, [("error", "type not found")]⟩, panicked := false } :=
  ⟨rfl, rfl, by decide, by decide,
   (handlePostClaim_unknown_tag sampleEnv "0xabc" (sampleBody 9 "") [] none (sampleMsg 9 "")
      (sampleBuf 9) rfl rfl (by decide)).1 (by decide)⟩

/-! ## AuthorizeKSign claims and the delegated signature check -/

/-- C3: for an AuthorizeKSign-tagged buffer that parses to `cl`, the handler's
first two calls are the parser and `AddAuthorizeKSignClaim` with exactly the
request's address, `cl` and the request's signature, and no later call is an
insertion; whenever that operation returns an error the handler answers 400
with no proof, calls neither `GetClaimByHi` nor another insertion, leaves the
state as it was, and so the relay's root is unchanged. -/
theorem handlePostClaim_authorizeKSign_rejected (env : Env S) (idaddrhex : String)
    (body : S.Body) (s : S.State) (bindErr : Option String) (msg : BytesSignedMsg)
    (bytesValue : GoSlice) (cl : S.AuthorizeKSignClaim)
    (hbind : env.ShouldBindJSON body = (bindErr, msg))
    (hdist : TagsDistinct env)
    (hdec : env.HexToBytes msg.ValueHex = .ok bytesValue) (hlen : 56 ≤ bytesValue.len)
    (htag : typeTag bytesValue = env.AuthorizeksignTypeHash.tag)
    (hparse : env.ParseAuthorizeKSignClaimBytes bytesValue = .ok cl) :
    (∃ rest, (handlePostClaim env idaddrhex body s).calls =
        [Call.ParseAuthorizeKSignClaimBytes bytesValue,
         Call.AddAuthorizeKSignClaim (env.HexToAddress idaddrhex) ⟨cl, msg.SignatureHex⟩]
          ++ rest ∧
      ∀ k ∈ rest, k.isInsertion = false) ∧
    (∀ err,
      (AddAuthorizeKSignClaim env (env.HexToAddress idaddrhex) ⟨cl, msg.SignatureHex⟩ s).1
        = some err →
      handlePostClaim env idaddrhex body s =
        { svc := s,
          calls := [Call.ParseAuthorizeKSignClaimBytes bytesValue,
            Call.AddAuthorizeKSignClaim (env.HexToAddress idaddrhex) ⟨cl, msg.SignatureHex⟩],
          logs := [⟨"error on AddAuthorizeKSignClaim", some err⟩],
          response := some ⟨400, [("error", "error on AddAuthorizeKSignClaim")]⟩,
          panicked := false } ∧
      env.MTRoot (handlePostClaim env idaddrhex body s).svc = env.MTRoot s) := by
  obtain ⟨t, hs, ht⟩ := bytesValue.slice_bytes_of_len hlen
  obtain ⟨-, h2, h3, -, -, -⟩ := hdist.ne
  simp only [Hash.tag] at htag
  cases bindErr <;>
  · simp only [handlePostClaim, Context.BindJSON, hbind, hdec, hs, ht, BytesToHex_eq_iff,
      htag, h2, h3, if_false, if_true, hparse, AddAuthorizeKSignClaim, Context.init,
      Context.call, Context.AbortWithStatus, Context.setSvc, List.nil_append,
      List.cons_append]
    constructor
    · cases env.authorizeKSignInsert (env.HexToAddress idaddrhex) ⟨cl, msg.SignatureHex⟩ s
      · simp [fail, Context.log, Context.JSON]
      · simp only []
        split <;> simp [fail, Context.log, Context.JSON, Call.isInsertion]
    · intro err herr
      cases hins : env.authorizeKSignInsert (env.HexToAddress idaddrhex)
          ⟨cl, msg.SignatureHex⟩ s with
      | ok s1 => simp [hins] at herr
      | error e =>
        simp only [hins, Option.some.injEq] at herr
        subst herr
        exact ⟨rfl, rfl⟩

theorem handlePostClaim_authorizeKSign_rejected_witness :
    sampleEnv.ShouldBindJSON (sampleBody 3 "0xbad") = (none, sampleMsg 3 "0xbad") ∧
    TagsDistinct sampleEnv ∧
    sampleEnv.HexToBytes (sampleMsg 3 "0xbad").ValueHex = .ok (sampleBuf 3) ∧
    56 ≤ (sampleBuf 3).len ∧
    typeTag (sampleBuf 3) = sampleEnv.AuthorizeksignTypeHash.tag ∧
    sampleEnv.ParseAuthorizeKSignClaimBytes (sampleBuf 3) = .ok (sampleClaimBytes 3) ∧
    (AddAuthorizeKSignClaim sampleEnv (sampleEnv.HexToAddress "0xabc")
      ⟨sampleClaimBytes 3, (sampleMsg 3 "0xbad").SignatureHex⟩
      [(some "0xdef", Hash.const 7)]).1 = some "signature verification failed" ∧
    handlePostClaim sampleEnv "0xabc" (sampleBody 3 "0xbad") [(some "0xdef", Hash.const 7)] =
      { svc := [(some "0xdef", Hash.const 7)],
        calls := [Call.ParseAuthorizeKSignClaimBytes (sampleBuf 3),
          Call.AddAuthorizeKSignClaim (sampleEnv.HexToAddress "0xabc")
            ⟨sampleClaimBytes 3, (sampleMsg 3 "0xbad").SignatureHex⟩],
        logs := [⟨"error on AddAuthorizeKSignClaim", some "signature verification failed"⟩],
        response := some ⟨400, [("error", "error on AddAuthorizeKSignClaim")]⟩,
        panicked := false } ∧
    sampleEnv.MTRoot
        (handlePostClaim sampleEnv "0xabc" (sampleBody 3 "0xbad")
          [(some "0xdef", Hash.const 7)]).svc =
      sampleEnv.MTRoot [(some "0xdef", Hash.const 7)] :=
  ⟨rfl, by decide, rfl, by decide, by decide, rfl, rfl,
   (handlePostClaim_authorizeKSign_rejected sampleEnv "0xabc" (sampleBody 3 "0xbad")
      [(some "0xdef", Hash.const 7)] none (sampleMsg 3 "0xbad") (sampleBuf 3)
      (sampleClaimBytes 3) rfl (by decide) rfl (by decide) (by decide) rfl).2
      "signature verification failed" rfl⟩

/-! ## Proof retrieval after a successful insertion -/

/-- C4 (what the code does): for a Default-, AssignName- or
AuthorizeKSign-tagged claim whose parse yields `cl` and whose insertion
succeeds leaving state `s1`, the handler calls, in this order, the parser,
the insertion and then `GetClaimByHi(Namespace, idaddr, cl.Hi())`; the
retrieval is evaluated in the post-insertion state `s1`; when it fails the
answer is 400 without a proof; when it succeeds the body carries the hex of
exactly that proof, and the status is 200 if the request body was bound
without error but 400 if `c.BindJSON` had failed, because the handler goes on
after a binding error. -/
theorem handlePostClaim_refetches_proof (env : Env S) (idaddrhex : String)
    (body : S.Body) (s s1 : S.State) (bindErr : Option String) (msg : BytesSignedMsg)
    (bytesValue : GoSlice)
    (hbind : env.ShouldBindJSON body = (bindErr, msg))
    (hdist : TagsDistinct env)
    (hdec : env.HexToBytes msg.ValueHex = .ok bytesValue) (hlen : 56 ≤ bytesValue.len) :
    (∀ cl, typeTag bytesValue = env.DefaultTypeHash.tag →
      env.ParseClaimDefaultBytes bytesValue = .ok cl →
      env.AddUserIDClaim env.Namespace (env.HexToAddress idaddrhex) ⟨cl, msg.SignatureHex⟩ s
        = (none, s1) →
      handlePostClaim env idaddrhex body s =
        match env.GetClaimByHi env.Namespace (env.HexToAddress idaddrhex) (env.HiDefault cl) s1 with
        | .ok proofOfClaim =>
          { svc := s1,
            calls := [Call.ParseClaimDefaultBytes bytesValue,
              Call.AddUserIDClaim env.Namespace (env.HexToAddress idaddrhex)
                ⟨cl, msg.SignatureHex⟩,
              Call.GetClaimByHi env.Namespace (env.HexToAddress idaddrhex) (env.HiDefault cl)],
            logs := [],
            response := some ⟨(match bindErr with
              | none => 200
              | some _ => 400), [("proofOfClaim", env.ProofHex proofOfClaim)]⟩,
            panicked := false }
        | .error err =>
          { svc := s1,
            calls := [Call.ParseClaimDefaultBytes bytesValue,
              Call.AddUserIDClaim env.Namespace (env.HexToAddress idaddrhex)
                ⟨cl, msg.SignatureHex⟩,
              Call.GetClaimByHi env.Namespace (env.HexToAddress idaddrhex) (env.HiDefault cl)],
            logs := [⟨"error on GetClaimByHi", some err⟩],
            response := some ⟨400, [("error", "error on GetClaimByHi")]⟩,
            panicked := false }) ∧
    (∀ cl, typeTag bytesValue = env.AssignNameTypeHash.tag →
      env.ParseAssignNameClaimBytes bytesValue = .ok cl →
      env.AddAssignNameClaim cl s = (none, s1) →
      handlePostClaim env idaddrhex body s =
        match env.GetClaimByHi env.Namespace (env.HexToAddress idaddrhex) (env.HiAssignName cl) s1 with
        | .ok proofOfClaim =>
          { svc := s1,
            calls := [Call.ParseAssignNameClaimBytes bytesValue,
              Call.AddAssignNameClaim cl,
              Call.GetClaimByHi env.Namespace (env.HexToAddress idaddrhex) (env.HiAssignName cl)],
            logs := [],
            response := some ⟨(match bindErr with
              | none => 200
              | some _ => 400), [("proofOfClaim", env.ProofHex proofOfClaim)]⟩,
            panicked := false }
        | .error err =>
          { svc := s1,
            calls := [Call.ParseAssignNameClaimBytes bytesValue,
              Call.AddAssignNameClaim cl,
              Call.GetClaimByHi env.Namespace (env.HexToAddress idaddrhex) (env.HiAssignName cl)],
            logs := [⟨"error on GetClaimByHi", some err⟩],
            response := some ⟨400, [("error", "error on GetClaimByHi")]⟩,
            panicked := false }) ∧
    (∀ cl, typeTag bytesValue = env.AuthorizeksignTypeHash.tag →
      env.ParseAuthorizeKSignClaimBytes bytesValue = .ok cl →
      AddAuthorizeKSignClaim env (env.HexToAddress idaddrhex) ⟨cl, msg.SignatureHex⟩ s
        = (none, s1) →
      handlePostClaim env idaddrhex body s =
        match env.GetClaimByHi env.Namespace (env.HexToAddress idaddrhex) (env.HiAuthorizeKSign cl) s1 with
        | .ok proofOfClaim =>
          { svc := s1,
            calls := [Call.ParseAuthorizeKSignClaimBytes bytesValue,
              Call.AddAuthorizeKSignClaim (env.HexToAddress idaddrhex)
                ⟨cl, msg.SignatureHex⟩,
              Call.GetClaimByHi env.Namespace (env.HexToAddress idaddrhex) (env.HiAuthorizeKSign cl)],
            logs := [],
            response := some ⟨(match bindErr with
              | none => 200
              | some _ => 400), [("proofOfClaim", env.ProofHex proofOfClaim)]⟩,
            panicked := false }
        | .error err =>
          { svc := s1,
            calls := [Call.ParseAuthorizeKSignClaimBytes bytesValue,
              Call.AddAuthorizeKSignClaim (env.HexToAddress idaddrhex)
                ⟨cl, msg.SignatureHex⟩,
              Call.GetClaimByHi env.Namespace (env.HexToAddress idaddrhex) (env.HiAuthorizeKSign cl)],
            logs := [⟨"error on GetClaimByHi", some err⟩],
            response := some ⟨400, [("error", "error on GetClaimByHi")]⟩,
            panicked := false }) := by
  obtain ⟨t, hs, ht⟩ := bytesValue.slice_bytes_of_len hlen
  obtain ⟨h1, h2, h3, -, -, -⟩ := hdist.ne
  cases bindErr <;>
  · refine ⟨?_, ?_, ?_⟩
    · intro cl htag hparse hadd
      simp only [Hash.tag] at htag
      simp only [handlePostClaim, Context.BindJSON, hbind, hdec, hs, ht, BytesToHex_eq_iff,
        htag, if_true, hparse, Context.init, Context.call, Context.AbortWithStatus, hadd,
        Context.setSvc, List.nil_append, List.cons_append]
      cases env.GetClaimByHi env.Namespace (env.HexToAddress idaddrhex)
        (env.HiDefault cl) s1 <;> rfl
    · intro cl htag hparse hadd
      simp only [Hash.tag] at htag
      simp only [handlePostClaim, Context.BindJSON, hbind, hdec, hs, ht, BytesToHex_eq_iff,
        htag, h1, if_false, if_true, hparse, Context.init, Context.call,
        Context.AbortWithStatus, hadd, Context.setSvc, List.nil_append, List.cons_append]
      cases env.GetClaimByHi env.Namespace (env.HexToAddress idaddrhex)
        (env.HiAssignName cl) s1 <;> rfl
    · intro cl htag hparse hadd
      simp only [Hash.tag] at htag
      simp only [handlePostClaim, Context.BindJSON, hbind, hdec, hs, ht, BytesToHex_eq_iff,
        htag, h2, h3, if_false, if_true, hparse, Context.init, Context.call,
        Context.AbortWithStatus, hadd, Context.setSvc, List.nil_append, List.cons_append]
      cases env.GetClaimByHi env.Namespace (env.HexToAddress idaddrhex)
        (env.HiAuthorizeKSign cl) s1 <;> rfl

theorem handlePostClaim_refetches_proof_witness :
    sampleEnv.ShouldBindJSON (sampleBadSigBody 1) =
      (some "json: cannot unmarshal number into Go value of type string", sampleMsg 1 "") ∧
    TagsDistinct sampleEnv ∧
    sampleEnv.HexToBytes (sampleMsg 1 "").ValueHex = .ok (sampleBuf 1) ∧
    56 ≤ (sampleBuf 1).len ∧
    typeTag (sampleBuf 1) = sampleEnv.DefaultTypeHash.tag ∧
    sampleEnv.ParseClaimDefaultBytes (sampleBuf 1) = .ok (sampleClaimBytes 1) ∧
    sampleEnv.AddUserIDClaim sampleEnv.Namespace (sampleEnv.HexToAddress "0xabc")
      ⟨sampleClaimBytes 1, (sampleMsg 1 "").SignatureHex⟩ []
      = (none, [(some "0xabc", Hash.copyFrom [1, 2, 3, 4, 5, 6, 7, 8])]) ∧
    sampleEnv.GetClaimByHi "iden3.io" "0xabc" (Hash.copyFrom [1, 2, 3, 4, 5, 6, 7, 8]) []
      = .error "claim not found" ∧
    handlePostClaim sampleEnv "0xabc" (sampleBadSigBody 1) [] =
      { svc := [(some "0xabc", Hash.copyFrom [1, 2, 3, 4, 5, 6, 7, 8])],
        calls := [Call.ParseClaimDefaultBytes (sampleBuf 1),
          Call.AddUserIDClaim "iden3.io" "0xabc" ⟨sampleClaimBytes 1, ""⟩,
          Call.GetClaimByHi "iden3.io" "0xabc" (Hash.copyFrom [1, 2, 3, 4, 5, 6, 7, 8])],
        logs := [],
        response := some ⟨400, [("proofOfClaim", "0x0102")]⟩,
        panicked := false } :=
  ⟨rfl, by decide, rfl, by decide, by decide, rfl, rfl, rfl,
   (handlePostClaim_refetches_proof sampleEnv "0xabc" (sampleBadSigBody 1) []
      [(some "0xabc", Hash.copyFrom [1, 2, 3, 4, 5, 6, 7, 8])]
      (some "json: cannot unmarshal number into Go value of type string") (sampleMsg 1 "")
      (sampleBuf 1) rfl (by decide) rfl (by decide)).1 (sampleClaimBytes 1) (by decide) rfl rfl⟩

/-! ## Malformed claims -/

/-- C5: when the hex decoding of the claim value fails, the handler answers
400 and calls nothing; when the tag is Default, AssignName or AuthorizeKSign
and the matching parser returns an error, the handler answers 400 and its
only call is that parser: no insertion, no `GetClaimByHi`, state untouched. -/
theorem handlePostClaim_malformed (env : Env S) (idaddrhex : String)
    (body : S.Body) (s : S.State) (bindErr : Option String) (msg : BytesSignedMsg)
    (hbind : env.ShouldBindJSON body = (bindErr, msg)) :
    (∀ err, env.HexToBytes msg.ValueHex = .error err →
      handlePostClaim env idaddrhex body s =
        { svc := s, calls := [],
          logs := [⟨"error on parsing bytesSignedMsg.HexValue to bytes", some err⟩],
          response :=
            some ⟨400, [("error", "error on parsing bytesSignedMsg.HexValue to bytes")]⟩,
          panicked := false }) ∧
    (∀ bytesValue err, TagsDistinct env →
      env.HexToBytes msg.ValueHex = .ok bytesValue → 56 ≤ bytesValue.len →
      (typeTag bytesValue = env.DefaultTypeHash.tag →
        env.ParseClaimDefaultBytes bytesValue = .error err →
        handlePostClaim env idaddrhex body s =
          { svc := s, calls := [Call.ParseClaimDefaultBytes bytesValue],
            logs := [⟨"error on parsing ClaimDefault bytes", some err⟩],
            response := some ⟨400, [("error", "error on parsing ClaimDefault bytes")]⟩,
            panicked := false }) ∧
      (typeTag bytesValue = env.AssignNameTypeHash.tag →
        env.ParseAssignNameClaimBytes bytesValue = .error err →
        handlePostClaim env idaddrhex body s =
          { svc := s, calls := [Call.ParseAssignNameClaimBytes bytesValue],
            logs := [⟨"error on parsing AssignNameClaim bytes", some err⟩],
            response := some ⟨400, [("error", "error on parsing AssignNameClaim bytes")]⟩,
            panicked := false }) ∧
      (typeTag bytesValue = env.AuthorizeksignTypeHash.tag →
        env.ParseAuthorizeKSignClaimBytes bytesValue = .error err →
        handlePostClaim env idaddrhex body s =
          { svc := s, calls := [Call.ParseAuthorizeKSignClaimBytes bytesValue],
            logs := [⟨"error on parsing AuthorizeKSignClaim bytes", some err⟩],
            response :=
              some ⟨400, [("error", "error on parsing AuthorizeKSignClaim bytes")]⟩,
            panicked := false })) := by
  cases bindErr <;>
  · constructor
    · intro err hdec
      simp only [handlePostClaim, Context.BindJSON, hbind, hdec]
      rfl
    · intro bytesValue err hdist hdec hlen
      obtain ⟨t, hs, ht⟩ := bytesValue.slice_bytes_of_len hlen
      obtain ⟨h1, h2, h3, -, -, -⟩ := hdist.ne
      refine ⟨?_, ?_, ?_⟩
      · intro htag hparse
        simp only [Hash.tag] at htag
        simp only [handlePostClaim, Context.BindJSON, hbind, hdec, hs, ht, BytesToHex_eq_iff,
          htag, if_true, hparse]
        rfl
      · intro htag hparse
        simp only [Hash.tag] at htag
        simp only [handlePostClaim, Context.BindJSON, hbind, hdec, hs, ht, BytesToHex_eq_iff,
          htag, h1, if_false, if_true, hparse]
        rfl
      · intro htag hparse
        simp only [Hash.tag] at htag
        simp only [handlePostClaim, Context.BindJSON, hbind, hdec, hs, ht, BytesToHex_eq_iff,
          htag, h2, h3, if_false, if_true, hparse]
        rfl

theorem handlePostClaim_malformed_witness :
    sampleEnv.ShouldBindJSON [("valueHex", .str "0xzz"), ("signatureHex", .str "")]
      = (none, ⟨"0xzz", ""⟩) ∧
    sampleEnv.HexToBytes (BytesSignedMsg.mk "0xzz" "").ValueHex
      = .error "encoding/hex: invalid input" ∧
    handlePostClaim sampleEnv "0xabc" [("valueHex", .str "0xzz"), ("signatureHex", .str "")]
        [] =
      { svc := [], calls := [],
        logs := [⟨"error on parsing bytesSignedMsg.HexValue to bytes",
          some "encoding/hex: invalid input"⟩],
        response :=
          some ⟨400, [("error", "error on parsing bytesSignedMsg.HexValue to bytes")]⟩,
        panicked := false } ∧
    sampleEnv.ShouldBindJSON (sampleTruncatedBody 2) = (none, sampleTruncatedMsg 2) ∧
    TagsDistinct sampleEnv ∧
    sampleEnv.HexToBytes (sampleTruncatedMsg 2).ValueHex = .ok (sampleTruncatedBuf 2) ∧
    56 ≤ (sampleTruncatedBuf 2).len ∧
    typeTag (sampleTruncatedBuf 2) = sampleEnv.AssignNameTypeHash.tag ∧
    sampleEnv.ParseAssignNameClaimBytes (sampleTruncatedBuf 2) = .error "claim too short" ∧
    handlePostClaim sampleEnv "0xabc" (sampleTruncatedBody 2) [] =
      { svc := [], calls := [Call.ParseAssignNameClaimBytes (sampleTruncatedBuf 2)],
        logs := [⟨"error on parsing AssignNameClaim bytes", some "claim too short"⟩],
        response := some ⟨400, [("error", "error on parsing AssignNameClaim bytes")]⟩,
        panicked := false } :=
  ⟨rfl, rfl,
   (handlePostClaim_malformed sampleEnv "0xabc"
      [("valueHex", .str "0xzz"), ("signatureHex", .str "")] [] none ⟨"0xzz", ""⟩ rfl).1 _ rfl,
   rfl, by decide, rfl, by decide, by decide, rfl,
   ((handlePostClaim_malformed sampleEnv "0xabc" (sampleTruncatedBody 2) [] none
      (sampleTruncatedMsg 2) rfl).2
      (sampleTruncatedBuf 2) "claim too short" (by decide) rfl (by decide)).2.1
      (by decide) rfl⟩

/-! ## SetRoot claims -/

/-- C6 (what the code does): for a claim buffer whose bytes [32,56) equal the
SetRoot tag, the handler itself does nothing: no parser, insertion or
retrieval call, no log line from `fail`, no panic, and the state is
unchanged.  No response is written when the request body was bound without
error; when `c.BindJSON` had failed, its status 400 with an empty body is the
answer, because the handler goes on after a binding error. -/
theorem handlePostClaim_setRoot_noop (env : Env S) (idaddrhex : String)
    (body : S.Body) (s : S.State) (bindErr : Option String) (msg : BytesSignedMsg)
    (bytesValue : GoSlice)
    (hbind : env.ShouldBindJSON body = (bindErr, msg))
    (hdist : TagsDistinct env)
    (hdec : env.HexToBytes msg.ValueHex = .ok bytesValue) (hlen : 56 ≤ bytesValue.len)
    (htag : typeTag bytesValue = env.SetRootTypeHash.tag) :
    handlePostClaim env idaddrhex body s =
      { svc := s, calls := [], logs := [],
        response :=
          match bindErr with
          | none => none
          | some _ => some ⟨400, []⟩,
        panicked := false } := by
  obtain ⟨t, hs, ht⟩ := bytesValue.slice_bytes_of_len hlen
  obtain ⟨-, -, -, h4, h5, h6⟩ := hdist.ne
  simp only [Hash.tag] at htag
  cases bindErr <;>
  · simp only [handlePostClaim, Context.BindJSON, hbind, hdec, hs, ht, BytesToHex_eq_iff,
      htag, h4, h5, h6, if_false, if_true]
    rfl

theorem handlePostClaim_setRoot_noop_witness :
    sampleEnv.ShouldBindJSON (sampleBadSigBody 4) =
      (some "json: cannot unmarshal number into Go value of type string", sampleMsg 4 "") ∧
    TagsDistinct sampleEnv ∧
    sampleEnv.HexToBytes (sampleMsg 4 "").ValueHex = .ok (sampleBuf 4) ∧
    56 ≤ (sampleBuf 4).len ∧
    typeTag (sampleBuf 4) = sampleEnv.SetRootTypeHash.tag ∧
    handlePostClaim sampleEnv "0xabc" (sampleBadSigBody 4) [] =
      { svc := [], calls := [], logs := [], response := some ⟨400, []⟩, panicked := false } :=
  ⟨rfl, by decide, rfl, by decide, by decide,
   handlePostClaim_setRoot_noop sampleEnv "0xabc" (sampleBadSigBody 4) []
     (some "json: cannot unmarshal number into Go value of type string") (sampleMsg 4 "")
     (sampleBuf 4) rfl (by decide) rfl (by decide) (by decide)⟩

/-! ## The root query -/

/-- C7 (as stated, refuted): in the sample relay without a reachable
root-commits contract `GetRoot` fails, and `handleGetRoot` then answers 400
with only an error message; the local root is not reported. -/
theorem handleGetRoot_ledger_error_hides_local_root :
    sampleEnvNoLedger.GetRoot
        (sampleEnvNoLedger.HexToAddress sampleEnvNoLedger.RootCommitsAddress) []
      = .error "no contract code at given address" ∧
    (handleGetRoot sampleEnvNoLedger []).response =
      some ⟨400, [("error", "error contract.GetRoot(contractAddress)")]⟩ ∧
    ¬ ReportsLocalRoot sampleEnvNoLedger [] (handleGetRoot sampleEnvNoLedger []) := by
  refine ⟨rfl, rfl, ?_⟩
  rintro ⟨r, hr, hmem⟩
  have h : (handleGetRoot sampleEnvNoLedger []).response =
      some ⟨400, [("error", "error contract.GetRoot(contractAddress)")]⟩ := rfl
  rw [h] at hr
  cases hr
  simp at hmem

/-- C7 (amended): when `rootservice.GetRoot` returns an error, `handleGetRoot`
fails the whole request: its only call is `GetRoot`, it answers 400 with only
the error message, never reads `MT().Root()` and reports no local root, and
the state is unchanged.  Claim submission and proof retrieval are not
blocked: `handlePostClaim` and `handleGetClaimByHi` behave the same whatever
`GetRoot` does. -/
theorem handleGetRoot_ledger_unavailable (env : Env S) (s : S.State) (err : String)
    (hroot : env.GetRoot (env.HexToAddress env.RootCommitsAddress) s = .error err) :
    handleGetRoot env s =
      { svc := s, calls := [Call.GetRoot (env.HexToAddress env.RootCommitsAddress)],
        logs := [⟨"error contract.GetRoot(contractAddress)", some err⟩],
        response := some ⟨400, [("error", "error contract.GetRoot(contractAddress)")]⟩,
        panicked := false } ∧
    ¬ ReportsLocalRoot env s (handleGetRoot env s) ∧
    (∀ getRoot idaddrhex body,
      handlePostClaim { env with GetRoot := getRoot } idaddrhex body s =
        handlePostClaim env idaddrhex body s) ∧
    (∀ getRoot idaddrhex hihex,
      handleGetClaimByHi { env with GetRoot := getRoot } idaddrhex hihex s =
        handleGetClaimByHi env idaddrhex hihex s) := by
  have h : handleGetRoot env s =
      { svc := s, calls := [Call.GetRoot (env.HexToAddress env.RootCommitsAddress)],
        logs := [⟨"error contract.GetRoot(contractAddress)", some err⟩],
        response := some ⟨400, [("error", "error contract.GetRoot(contractAddress)")]⟩,
        panicked := false } := by
    simp only [handleGetRoot, Context.init, Context.call, hroot, List.nil_append]
    rfl
  refine ⟨h, ?_, fun _ _ _ => rfl, fun _ _ _ => rfl⟩
  rintro ⟨r, hr, hmem⟩
  rw [h] at hr
  cases hr
  simp at hmem

theorem handleGetRoot_ledger_unavailable_witness :
    sampleEnvNoLedger.GetRoot
        (sampleEnvNoLedger.HexToAddress sampleEnvNoLedger.RootCommitsAddress) []
      = .error "no contract code at given address" ∧
    handleGetRoot sampleEnvNoLedger [] =
      { svc := [], calls := [Call.GetRoot ""],
        logs := [⟨"error contract.GetRoot(contractAddress)",
          some "no contract code at given address"⟩],
        response := some ⟨400, [("error", "error contract.GetRoot(contractAddress)")]⟩,
        panicked := false } :=
  ⟨rfl, (handleGetRoot_ledger_unavailable sampleEnvNoLedger []
    "no contract code at given address" rfl).1⟩

/-- C8: when `rootservice.GetRoot` succeeds with `r`, `handleGetRoot` answers
200 with "root" the hex of the relay tree's root and "contractRoot" the hex of
the bytes of `r`; its only calls are `GetRoot` and the read of `MT().Root()`
(no insertion), and the state is unchanged. -/
theorem handleGetRoot_reports_both_roots (env : Env S) (s : S.State) (r : Hash)
    (hroot : env.GetRoot (env.HexToAddress env.RootCommitsAddress) s = .ok r) :
    handleGetRoot env s =
      { svc := s,
        calls := [Call.GetRoot (env.HexToAddress env.RootCommitsAddress), Call.MTRoot],
        logs := [],
        response := some ⟨200, [("root", env.HashHex (env.MTRoot s)),
                                ("contractRoot", BytesToHex r.bytes)]⟩,
        panicked := false } ∧
    ∀ k ∈ (handleGetRoot env s).calls, k.isInsertion = false := by
  have h : handleGetRoot env s =
      { svc := s,
        calls := [Call.GetRoot (env.HexToAddress env.RootCommitsAddress), Call.MTRoot],
        logs := [],
        response := some ⟨200, [("root", env.HashHex (env.MTRoot s)),
                                ("contractRoot", BytesToHex r.bytes)]⟩,
        panicked := false } := by
    simp only [handleGetRoot, Context.init, Context.call, hroot, List.nil_append]
    rfl
  refine ⟨h, ?_⟩
  rw [h]
  intro k hk
  simp only [List.mem_cons, List.mem_singleton, List.not_mem_nil, or_false] at hk
  rcases hk with rfl | rfl <;> rfl

theorem handleGetRoot_reports_both_roots_witness :
    sampleEnv.GetRoot (sampleEnv.HexToAddress sampleEnv.RootCommitsAddress)
        [(some "0xabc", Hash.const 7)] = .ok Hash.zero ∧
    (handleGetRoot sampleEnv [(some "0xabc", Hash.const 7)]).response =
      some ⟨200,
        [("root", "0x0707070707070707070707070707070707070707070707070707070707070707"),
         ("contractRoot",
          "0x0000000000000000000000000000000000000000000000000000000000000000")]⟩ :=
  ⟨rfl, (congrArg Context.response (handleGetRoot_reports_both_roots sampleEnv
    [(some "0xabc", Hash.const 7)] Hash.zero rfl).1).trans (by decide)⟩

/-! ## Which identity an insertion is filed under -/

/-- C9 (as stated, refuted): in the sample relay an AssignName claim posted
for identity `0xabc` is accepted (200 with a proof fetched under `0xabc`),
yet its insertion call was not given the address `0xabc`. -/
theorem handlePostClaim_assignName_insertion_unscoped :
    (handlePostClaim sampleEnv "0xabc" (sampleBody 2 "") []).response =
      some ⟨200, [("proofOfClaim", "0x0102")]⟩ ∧
    (handlePostClaim sampleEnv "0xabc" (sampleBody 2 "") []).calls =
      [Call.ParseAssignNameClaimBytes (sampleBuf 2),
       Call.AddAssignNameClaim (sampleClaimBytes 2),
       Call.GetClaimByHi "iden3.io" "0xabc" (Hash.copyFrom [1, 2, 3, 4, 5, 6, 7, 8])] ∧
    ¬ InsertionScopedTo (handlePostClaim sampleEnv "0xabc" (sampleBody 2 "") []) "0xabc" := by
  have h : (handlePostClaim sampleEnv "0xabc" (sampleBody 2 "") []).calls =
      [Call.ParseAssignNameClaimBytes (sampleBuf 2),
       Call.AddAssignNameClaim (sampleClaimBytes 2),
       Call.GetClaimByHi "iden3.io" "0xabc" (Hash.copyFrom [1, 2, 3, 4, 5, 6, 7, 8])] := rfl
  refine ⟨by decide, h, ?_⟩
  intro hscoped
  have := hscoped (Call.AddAssignNameClaim (sampleClaimBytes 2)) (by rw [h]; simp) rfl
  simp [Call.insertionAddr] at this

/-- C9 (amended): for an accepted Default or AuthorizeKSign claim the
insertion is called with the request's identity address, the same address
under which the proof is then fetched, and every insertion call of the
handler carries that address.  For an accepted AssignName claim the insertion
`AddAssignNameClaim` is given the parsed claim only: the calls are the
parser, `AddAssignNameClaim(cl)` and `GetClaimByHi` under the request's
address, and the state the insertion leaves is the same for every identity
address the request may name. -/
theorem handlePostClaim_insertion_scope (env : Env S) (idaddrhex : String)
    (body : S.Body) (s s1 : S.State) (bindErr : Option String) (msg : BytesSignedMsg)
    (bytesValue : GoSlice)
    (hbind : env.ShouldBindJSON body = (bindErr, msg))
    (hdist : TagsDistinct env)
    (hdec : env.HexToBytes msg.ValueHex = .ok bytesValue) (hlen : 56 ≤ bytesValue.len) :
    (∀ cl, typeTag bytesValue = env.DefaultTypeHash.tag →
      env.ParseClaimDefaultBytes bytesValue = .ok cl →
      env.AddUserIDClaim env.Namespace (env.HexToAddress idaddrhex) ⟨cl, msg.SignatureHex⟩ s
        = (none, s1) →
      (handlePostClaim env idaddrhex body s).calls =
        [Call.ParseClaimDefaultBytes bytesValue,
         Call.AddUserIDClaim env.Namespace (env.HexToAddress idaddrhex) ⟨cl, msg.SignatureHex⟩,
         Call.GetClaimByHi env.Namespace (env.HexToAddress idaddrhex) (env.HiDefault cl)] ∧
      InsertionScopedTo (handlePostClaim env idaddrhex body s) (env.HexToAddress idaddrhex)) ∧
    (∀ cl, typeTag bytesValue = env.AuthorizeksignTypeHash.tag →
      env.ParseAuthorizeKSignClaimBytes bytesValue = .ok cl →
      AddAuthorizeKSignClaim env (env.HexToAddress idaddrhex) ⟨cl, msg.SignatureHex⟩ s
        = (none, s1) →
      (handlePostClaim env idaddrhex body s).calls =
        [Call.ParseAuthorizeKSignClaimBytes bytesValue,
         Call.AddAuthorizeKSignClaim (env.HexToAddress idaddrhex) ⟨cl, msg.SignatureHex⟩,
         Call.GetClaimByHi env.Namespace (env.HexToAddress idaddrhex)
           (env.HiAuthorizeKSign cl)] ∧
      InsertionScopedTo (handlePostClaim env idaddrhex body s) (env.HexToAddress idaddrhex)) ∧
    (∀ cl, typeTag bytesValue = env.AssignNameTypeHash.tag →
      env.ParseAssignNameClaimBytes bytesValue = .ok cl →
      env.AddAssignNameClaim cl s = (none, s1) →
      (handlePostClaim env idaddrhex body s).calls =
        [Call.ParseAssignNameClaimBytes bytesValue,
         Call.AddAssignNameClaim cl,
         Call.GetClaimByHi env.Namespace (env.HexToAddress idaddrhex)
           (env.HiAssignName cl)] ∧
      ∀ idaddrhex2, (handlePostClaim env idaddrhex2 body s).svc = s1) := by
  obtain ⟨t, hs, ht⟩ := bytesValue.slice_bytes_of_len hlen
  obtain ⟨h1, h2, h3, -, -, -⟩ := hdist.ne
  cases bindErr <;>
  · refine ⟨?_, ?_, ?_⟩
    · intro cl htag hparse hadd
      simp only [Hash.tag] at htag
      have hc : (handlePostClaim env idaddrhex body s).calls =
          [Call.ParseClaimDefaultBytes bytesValue,
           Call.AddUserIDClaim env.Namespace (env.HexToAddress idaddrhex) ⟨cl, msg.SignatureHex⟩,
           Call.GetClaimByHi env.Namespace (env.HexToAddress idaddrhex) (env.HiDefault cl)] := by
        simp only [handlePostClaim, Context.BindJSON, hbind, hdec, hs, ht, BytesToHex_eq_iff, htag, if_true, hparse,
          Context.init, Context.call, Context.AbortWithStatus, hadd, Context.setSvc, List.nil_append, List.cons_append]
        cases env.GetClaimByHi env.Namespace (env.HexToAddress idaddrhex)
          (env.HiDefault cl) s1 <;> rfl
      refine ⟨hc, ?_⟩
      intro k hk hins
      rw [hc] at hk
      simp only [List.mem_cons, List.mem_singleton, List.not_mem_nil, or_false] at hk
      rcases hk with rfl | rfl | rfl
      · simp [Call.isInsertion] at hins
      · rfl
      · simp [Call.isInsertion] at hins
    · intro cl htag hparse hadd
      simp only [Hash.tag] at htag
      have hc : (handlePostClaim env idaddrhex body s).calls =
          [Call.ParseAuthorizeKSignClaimBytes bytesValue,
           Call.AddAuthorizeKSignClaim (env.HexToAddress idaddrhex) ⟨cl, msg.SignatureHex⟩,
           Call.GetClaimByHi env.Namespace (env.HexToAddress idaddrhex)
             (env.HiAuthorizeKSign cl)] := by
        simp only [handlePostClaim, Context.BindJSON, hbind, hdec, hs, ht, BytesToHex_eq_iff, htag, h2, h3, if_false,
          if_true, hparse, Context.init, Context.call, Context.AbortWithStatus, hadd, Context.setSvc, List.nil_append,
          List.cons_append]
        cases env.GetClaimByHi env.Namespace (env.HexToAddress idaddrhex)
          (env.HiAuthorizeKSign cl) s1 <;> rfl
      refine ⟨hc, ?_⟩
      intro k hk hins
      rw [hc] at hk
      simp only [List.mem_cons, List.mem_singleton, List.not_mem_nil, or_false] at hk
      rcases hk with rfl | rfl | rfl
      · simp [Call.isInsertion] at hins
      · rfl
      · simp [Call.isInsertion] at hins
    · intro cl htag hparse hadd
      simp only [Hash.tag] at htag
      constructor
      · simp only [handlePostClaim, Context.BindJSON, hbind, hdec, hs, ht, BytesToHex_eq_iff, htag, h1, if_false,
          if_true, hparse, Context.init, Context.call, Context.AbortWithStatus, hadd, Context.setSvc, List.nil_append,
          List.cons_append]
        cases env.GetClaimByHi env.Namespace (env.HexToAddress idaddrhex)
          (env.HiAssignName cl) s1 <;> rfl
      · intro idaddrhex2
        simp only [handlePostClaim, Context.BindJSON, hbind, hdec, hs, ht, BytesToHex_eq_iff, htag, h1, if_false,
          if_true, hparse, Context.init, Context.call, Context.AbortWithStatus, hadd, Context.setSvc, List.nil_append,
          List.cons_append]
        cases env.GetClaimByHi env.Namespace (env.HexToAddress idaddrhex2)
          (env.HiAssignName cl) s1 <;> rfl

theorem handlePostClaim_insertion_scope_witness :
    sampleEnv.ShouldBindJSON (sampleBody 3 "0x600d") = (none, sampleMsg 3 "0x600d") ∧
    TagsDistinct sampleEnv ∧
    sampleEnv.HexToBytes (sampleMsg 3 "0x600d").ValueHex = .ok (sampleBuf 3) ∧
    56 ≤ (sampleBuf 3).len ∧
    typeTag (sampleBuf 3) = sampleEnv.AuthorizeksignTypeHash.tag ∧
    sampleEnv.ParseAuthorizeKSignClaimBytes (sampleBuf 3) = .ok (sampleClaimBytes 3) ∧
    AddAuthorizeKSignClaim sampleEnv (sampleEnv.HexToAddress "0xabc")
      ⟨sampleClaimBytes 3, (sampleMsg 3 "0x600d").SignatureHex⟩ []
      = (none, [(some "0xabc", Hash.copyFrom [1, 2, 3, 4, 5, 6, 7, 8])]) ∧
    (handlePostClaim sampleEnv "0xabc" (sampleBody 3 "0x600d") []).calls =
      [Call.ParseAuthorizeKSignClaimBytes (sampleBuf 3),
       Call.AddAuthorizeKSignClaim "0xabc" ⟨sampleClaimBytes 3, "0x600d"⟩,
       Call.GetClaimByHi "iden3.io" "0xabc" (Hash.copyFrom [1, 2, 3, 4, 5, 6, 7, 8])] ∧
    InsertionScopedTo (handlePostClaim sampleEnv "0xabc" (sampleBody 3 "0x600d") []) "0xabc" :=
  ⟨rfl, by decide, rfl, by decide, by decide, rfl, rfl,
   (handlePostClaim_insertion_scope sampleEnv "0xabc" (sampleBody 3 "0x600d") []
      [(some "0xabc", Hash.copyFrom [1, 2, 3, 4, 5, 6, 7, 8])] none (sampleMsg 3 "0x600d")
      (sampleBuf 3) rfl (by decide) rfl (by decide)).2.1 (sampleClaimBytes 3) (by decide)
      rfl rfl⟩

/-! ## Proof retrieval by `Hi` -/

theorem Hash.copyFrom_getD (b : List Byte) (i : Nat) :
    (Hash.copyFrom b).bytes.getD i 0 = if i < min b.length 32 then b.getD i 0 else 0 := by
  simp only [Hash.copyFrom, goCopy, Hash.zero, List.length_replicate, List.getD_eq_getElem?_getD,
    List.getElem?_append, List.length_take, List.getElem?_take, List.getElem?_drop,
    List.getElem?_replicate]
  by_cases h1 : i < min 32 b.length
  · have h2 : i < min b.length 32 := by omega
    have h3 : i < min (min 32 b.length) b.length := by omega
    simp [h1, h2, h3]
  · have h2 : ¬ i < min b.length 32 := by omega
    have h3 : ¬ i < min (min 32 b.length) b.length := by omega
    simp only [h2, h3, if_false]
    split <;> rfl

theorem Hash.copyFrom_congr (b1 b2 : List Byte)
    (h : ∀ i, i < 32 → b1.getD i 0 = b2.getD i 0) : Hash.copyFrom b1 = Hash.copyFrom b2 := by
  have hb : (Hash.copyFrom b1).bytes = (Hash.copyFrom b2).bytes := by
    apply List.ext_getElem
    · rw [(Hash.copyFrom b1).size, (Hash.copyFrom b2).size]
    · intro i hi1 hi2
      have hi : i < 32 := by rw [(Hash.copyFrom b1).size] at hi1; exact hi1
      have e1 := Hash.copyFrom_getD b1 i
      have e2 := Hash.copyFrom_getD b2 i
      rw [List.getD_eq_getElem _ _ hi1] at e1
      rw [List.getD_eq_getElem _ _ hi2] at e2
      rw [e1, e2]
      have hh := h i hi
      by_cases c1 : i < b1.length <;> by_cases c2 : i < b2.length
      · have a1 : i < min b1.length 32 := by omega
        have a2 : i < min b2.length 32 := by omega
        simp only [a1, a2, if_true, hh]
      · have a1 : i < min b1.length 32 := by omega
        have a2 : ¬ i < min b2.length 32 := by omega
        simp only [a1, a2, if_true, if_false, hh]
        exact List.getD_eq_default _ _ (by omega)
      · have a1 : ¬ i < min b1.length 32 := by omega
        have a2 : i < min b2.length 32 := by omega
        simp only [a1, a2, if_true, if_false, ← hh]
        exact (List.getD_eq_default _ _ (by omega)).symm
      · have a1 : ¬ i < min b1.length 32 := by omega
        have a2 : ¬ i < min b2.length 32 := by omega
        simp only [a1, a2, if_false]
  cases h1 : Hash.copyFrom b1
  cases h2 : Hash.copyFrom b2
  simp only [h1, h2] at hb
  subst hb
  rfl

/-- C10: `handleGetClaimByHi` accepts a decoded `Hi` of any length: the hash
it passes to `GetClaimByHi` has 32 bytes, byte `i` being `b[i]` for
`i < min(len(b), 32)` and 0 elsewhere; two requests for the same identity
whose decoded values agree on the first 32 positions after zero padding make
the same call and get the same response. -/
theorem handleGetClaimByHi_pads_hi (env : Env S) (idaddrhex hihex : String) (s : S.State)
    (hiBytes : GoSlice) (hdec : env.HexToBytes hihex = .ok hiBytes) :
    (handleGetClaimByHi env idaddrhex hihex s).calls =
      [Call.GetClaimByHi env.Namespace (env.HexToAddress idaddrhex)
        (Hash.copyFrom hiBytes.bytes)] ∧
    (Hash.copyFrom hiBytes.bytes).bytes.length = 32 ∧
    (∀ i, (Hash.copyFrom hiBytes.bytes).bytes.getD i 0 =
      if i < min hiBytes.bytes.length 32 then hiBytes.bytes.getD i 0 else 0) ∧
    (∀ hihex2 hiBytes2, env.HexToBytes hihex2 = .ok hiBytes2 →
      (∀ i, i < 32 → hiBytes.bytes.getD i 0 = hiBytes2.bytes.getD i 0) →
      handleGetClaimByHi env idaddrhex hihex2 s = handleGetClaimByHi env idaddrhex hihex s) := by
  refine ⟨?_, (Hash.copyFrom hiBytes.bytes).size, Hash.copyFrom_getD hiBytes.bytes, ?_⟩
  · simp only [handleGetClaimByHi, hdec, Context.init, Context.call, List.nil_append]
    cases env.GetClaimByHi env.Namespace (env.HexToAddress idaddrhex)
      (Hash.copyFrom hiBytes.bytes) s <;> rfl
  · intro hihex2 hiBytes2 hdec2 hagree
    have hhi := Hash.copyFrom_congr hiBytes.bytes hiBytes2.bytes hagree
    simp only [handleGetClaimByHi, hdec, hdec2, hhi]

theorem handleGetClaimByHi_pads_hi_witness :
    sampleEnv.HexToBytes "0x0102" = .ok (GoSlice.ofList [1, 2]) ∧
    sampleEnv.HexToBytes "0x010200" = .ok (GoSlice.ofList [1, 2, 0]) ∧
    (handleGetClaimByHi sampleEnv "0xabc" "0x0102" []).calls =
      [Call.GetClaimByHi "iden3.io" "0xabc"
        ⟨[1, 2] ++ List.replicate 30 0, by decide⟩] ∧
    handleGetClaimByHi sampleEnv "0xabc" "0x010200" [] =
      handleGetClaimByHi sampleEnv "0xabc" "0x0102" [] :=
  ⟨rfl, rfl,
   (handleGetClaimByHi_pads_hi sampleEnv "0xabc" "0x0102" [] (GoSlice.ofList [1, 2]) rfl).1,
   (handleGetClaimByHi_pads_hi sampleEnv "0xabc" "0x0102" [] (GoSlice.ofList [1, 2]) rfl).2.2.2
     "0x010200" (GoSlice.ofList [1, 2, 0]) rfl (by decide)⟩

end Relay
